import Mathlib

/-!
Verification of the real-time event-stream client of the fintech CLI.

The embedding covers:
* the reader loop, filter and renderer of the `debug listen` command
  (`debugListenCmd` in the debug command file), together with its
  interrupt / graceful-close coordinator;
* the reader loop and coordinator of the `connect` command
  (`connectCmd` in the events command file);
* the dial-failure exits of both commands.

Inbound frames are modelled at the point after the websocket library has
returned their bytes: a frame is an `Option Json`, where `none` stands for
text that `json.Unmarshal` rejects, and `some j` for text that parses to
the JSON value `j`.  Wall-clock timestamps (`time.Now().Format`) enter the
model as an opaque string attached to each frame.  `encoding/json`'s
`MarshalIndent` is modelled by an executable pretty-printer over the same
JSON values (two-space indent, object keys sorted, HTML-escaping as in Go).
-/

/-- JSON values as decoded by `encoding/json` into `interface` values.
Numbers keep their rendered literal (the claims never look inside them);
objects are association lists with distinct keys, modelling the Go map. -/
inductive Json where
  | null
  | bool (b : Bool)
  | num (lit : String)
  | str (s : String)
  | arr (elems : List Json)
  | obj (fields : List (String × Json))

/-- Lookup in a decoded JSON object, modelling indexing a Go map. -/
def getField (fields : List (String × Json)) (k : String) : Option Json :=
  match fields with
  | [] => none
  | (k', v) :: rest => if k' = k then some v else getField rest k

/-- Does `sub.isPrefixOf` hold at some position of the list?  Helper for the
substring test. -/
def hasSubstrAux (sub : List Char) : List Char → Bool
  | [] => sub.isEmpty
  | c :: rest => sub.isPrefixOf (c :: rest) || hasSubstrAux sub rest

/-- Model of Go `strings.Contains s sub`. -/
def strContains (s sub : String) : Bool :=
  hasSubstrAux sub.toList s.toList

/-- Model of Go `fmt` width `%-30s`-style padding: pad on the right with
spaces up to the minimum width. -/
def padRight (s : String) (w : Nat) : String :=
  s ++ String.replicate (w - s.length) ' '

/-- Lower-case hex digit, for Go's `\u00XX` escapes of control characters. -/
def hexDigitChar (n : Nat) : Char :=
  if n < 10 then Char.ofNat (48 + n) else Char.ofNat (87 + n)

/-- Escaping of one character inside a JSON string, as Go's encoder does it
(HTML escaping on by default). -/
def goEscapeChar (c : Char) : String :=
  if c = '"' then "\\\""
  else if c = '\\' then "\\\\"
  else if c = '\n' then "\\n"
  else if c = '\r' then "\\r"
  else if c = '\t' then "\\t"
  else if c = '<' then "\\u003c"
  else if c = '>' then "\\u003e"
  else if c = '&' then "\\u0026"
  else if c.toNat = 8232 then "\\u2028"
  else if c.toNat = 8233 then "\\u2029"
  else if c.toNat < 32 then
    "\\u00" ++ String.mk [hexDigitChar (c.toNat / 16), hexDigitChar (c.toNat % 16)]
  else String.singleton c

/-- A JSON-quoted string literal. -/
def goQuote (s : String) : String :=
  "\"" ++ String.join (s.toList.map goEscapeChar) ++ "\""

/-- Byte-wise (here: character-wise) lexicographic order on keys, as Go's
map marshalling sorts object keys. -/
def leChars : List Char → List Char → Bool
  | [], _ => true
  | _ :: _, [] => false
  | a :: as, b :: bs => if a = b then leChars as bs else decide (a < b)

/-- Key order used when marshalling an object. -/
def leKey (s t : String) : Bool := leChars s.toList t.toList

/-- Insertion into a key-sorted field list. -/
def insertField (p : String × Json) : List (String × Json) → List (String × Json)
  | [] => [p]
  | q :: rest => if leKey p.1 q.1 then p :: q :: rest else q :: insertField p rest

/-- Insertion sort of object fields by key. -/
def sortFields : List (String × Json) → List (String × Json)
  | [] => []
  | p :: rest => insertField p (sortFields rest)

mutual

/-- Recursively sort every object's fields by key, modelling that Go's
encoder emits map keys in sorted order at every nesting level. -/
def sortJson : Json → Json
  | .null => .null
  | .bool b => .bool b
  | .num l => .num l
  | .str s => .str s
  | .arr es => .arr (sortJsonList es)
  | .obj fs => .obj (sortFields (sortJsonObj fs))

def sortJsonList : List Json → List Json
  | [] => []
  | e :: es => sortJson e :: sortJsonList es

def sortJsonObj : List (String × Json) → List (String × Json)
  | [] => []
  | (k, v) :: fs => (k, sortJson v) :: sortJsonObj fs

end

mutual

/-- Pretty-printing of a (key-sorted) JSON value with two-space indent,
modelling `json.MarshalIndent(v, "", "  ")`; `ind` is the indentation of
the surrounding context. -/
def jsonValue (ind : String) : Json → String
  | .null => "null"
  | .bool b => if b then "true" else "false"
  | .num lit => lit
  | .str s => goQuote s
  | .arr [] => "[]"
  | .arr (e :: es) =>
      "[\n" ++ jsonElems (ind ++ "  ") (e :: es) ++ "\n" ++ ind ++ "]"
  | .obj [] => "\x7b\x7d"
  | .obj (f :: fs) =>
      "\x7b\n" ++ jsonFields (ind ++ "  ") (f :: fs) ++ "\n" ++ ind ++ "\x7d"

def jsonElems (ind : String) : List Json → String
  | [] => ""
  | [e] => ind ++ jsonValue ind e
  | e :: e' :: es => ind ++ jsonValue ind e ++ ",\n" ++ jsonElems ind (e' :: es)

def jsonFields (ind : String) : List (String × Json) → String
  | [] => ""
  | [(k, v)] => ind ++ goQuote k ++ ": " ++ jsonValue ind v
  | (k, v) :: f :: fs =>
      ind ++ goQuote k ++ ": " ++ jsonValue ind v ++ ",\n" ++ jsonFields ind (f :: fs)

end

/-- Model of `json.MarshalIndent(event, "", "  ")` on a decoded value. -/
def marshalIndent (j : Json) : String := jsonValue "" (sortJson j)

/-- The flags of `debug listen` that the reader loop consults. -/
structure ListenCfg where
  verbose : Bool
  filterType : String

/-- Result of `json.Unmarshal(message, &event)` with `event` a
`map[string]interface` target: the text must parse (`some j`) and the
top-level value must be an object — except that unmarshalling the JSON
literal `null` succeeds with no effect, leaving `event` the nil map
(modelled as the empty field list); every other top-level value is an
unmarshalling error. -/
def decodeFrame : Option Json → Option (List (String × Json))
  | some (.obj fields) => some fields
  | some .null => some []
  | _ => none

/-- `event["type"].(string)` with the comma-ok form: the empty string when
the field is absent or not a JSON string. -/
def typeOf (event : List (String × Json)) : String :=
  match getField event "type" with
  | some (.str s) => s
  | _ => ""

/-- The compact-mode identifier: `event["data"].(map…)` then
`data["id"].(string)`, each with the comma-ok form defaulting to `""`. -/
def extractId (event : List (String × Json)) : String :=
  match getField event "data" with
  | some (.obj data) =>
      match getField data "id" with
      | some (.str s) => s
      | _ => ""
  | _ => ""

/-- One rendered output of the listen loop: the exact string handed to
`fmt.Printf`, either the verbose block `[ts] type\n<pretty>\n\n` or the
compact line `[ts] %-30s  id\n`. -/
def renderEvent (lcfg : ListenCfg) (ts eventType : String)
    (event : List (String × Json)) : String :=
  if lcfg.verbose then
    "[" ++ ts ++ "] " ++ eventType ++ "\n" ++ marshalIndent (Json.obj event) ++ "\n\n"
  else
    "[" ++ ts ++ "] " ++ padRight eventType 30 ++ "  " ++ extractId event ++ "\n"

/-- One iteration of the listen reader loop on a successfully received
frame: unmarshal (skip on failure), extract the type, apply the substring
filter (skip on mismatch), then render. -/
def processFrame (lcfg : ListenCfg) (ts : String) (fr : Option Json) : Option String :=
  match decodeFrame fr with
  | none => none
  | some event =>
    let eventType := typeOf event
    if lcfg.filterType != "" && !strContains eventType lcfg.filterType then none
    else some (renderEvent lcfg ts eventType event)

/-- Whether a frame survives decode and filter; the specification's
"well-formed and matching" predicate computed from the code's tests. -/
def frameMatches (filterType : String) (fr : Option Json) : Bool :=
  match decodeFrame fr with
  | none => false
  | some event => filterType == "" || strContains (typeOf event) filterType

/-- The decoded fields of a frame, defaulting to the empty object; only
used on frames known to decode. -/
def decodeFields (fr : Option Json) : List (String × Json) :=
  (decodeFrame fr).getD []

/-- All rendered outputs the reader loop produces for a sequence of
received frames (each paired with the wall-clock timestamp taken when it
was processed). -/
def readerLines (lcfg : ListenCfg) (frames : List (Option Json × String)) : List String :=
  frames.filterMap (fun p => processFrame lcfg p.2 p.1)

/-- The matching notion of C1 as stated: the frame decodes to a JSON
*object* whose type matches the possibly-absent filter.  (The code is
laxer: `Unmarshal` also accepts the JSON literal `null`.) -/
def objFrameMatches (filterType : String) (fr : Option Json) : Bool :=
  match fr with
  | some (.obj event) => filterType == "" || strContains (typeOf event) filterType
  | _ => false

/-- The count half of C1 as stated: for every frame sequence, the number
of rendered lines equals the number of frames that decode to a JSON
object and match the filter. -/
def exactObjectMatchClaim : Prop :=
  ∀ (lcfg : ListenCfg) (frames : List (Option Json × String)),
    (readerLines lcfg frames).length =
      frames.countP (fun p => objFrameMatches lcfg.filterType p.1)

/-- What `conn.ReadMessage` returns when the listen/connect reader loop
ends: either a websocket `CloseError` (protocol close frame, with its
status code and the text of `err.Error()`), or some other read error. -/
inductive Terminal where
  | closeErr (code : Nat) (errText : String)
  | otherErr (errText : String)
deriving DecidableEq

/-- The message text of the terminating read error (`err.Error()`). -/
def errText : Terminal → String
  | .closeErr _ t => t
  | .otherErr t => t

/-- `websocket.CloseNormalClosure`. -/
def closeNormalClosure : Nat := 1000

/-- `websocket.CloseGoingAway`. -/
def closeGoingAway : Nat := 1001

/-- Model of `websocket.IsUnexpectedCloseError(err, codes...)`: true only
for a `CloseError` whose code is not among the expected ones; any other
error kind yields false. -/
def isUnexpectedCloseError (expected : List Nat) : Terminal → Bool
  | .closeErr c _ => !(expected.contains c)
  | .otherErr _ => false

/-- Output of the listen reader loop at termination: the connection-error
line exactly when the close is unexpected (normal closure and going-away
are expected). -/
def listenReadFailLines (t : Terminal) : List String :=
  if isUnexpectedCloseError [closeGoingAway, closeNormalClosure] t then
    ["❌ connection error: " ++ errText t ++ "\n"]
  else []

/-- Everything the listen reader goroutine prints for a full run: the
rendered events for the received frames, then whatever the terminating
receive error produces. -/
def listenReaderOutput (lcfg : ListenCfg) (frames : List (Option Json × String))
    (t : Terminal) : List String :=
  readerLines lcfg frames ++ listenReadFailLines t

/-- Output of the connect reader loop at termination: `log.Println`
of the read error, unconditionally. -/
def connectReadFailLines (t : Terminal) : List String :=
  ["read-error: " ++ errText t ++ "\n"]

/-- The claim condition of C9: the decoded event's `data` field is a JSON
object whose `"id"` entry is a JSON string. -/
def dataHasStringId (event : List (String × Json)) : Bool :=
  match getField event "data" with
  | some (.obj data) =>
      match getField data "id" with
      | some (.str _) => true
      | _ => false
  | _ => false

/-- How a command run ends at the process level: an explicit exit call
(`os.Exit` / `log.Fatal`) with a code, or the `Run` function returning, in
which case cobra and `main` finish normally and the process exits 0. -/
inductive RunExit where
  | exited (code : Nat)
  | returned
deriving DecidableEq

/-- The process exit code an outcome produces. -/
def exitCodeOf : RunExit → Nat
  | .exited c => c
  | .returned => 0

/-- `debug listen` when `websocket.DefaultDialer.Dial` fails: print the
failure line and `return` from `Run`. -/
def debugListenDialFail (e : String) : List String × RunExit :=
  (["❌ Failed to connect: " ++ e ++ "\n"], .returned)

/-- `connect` when `websocket.DefaultDialer.Dial` fails:
`log.Fatal("Connection failed:", err)` prints and exits with code 1. -/
def connectDialFail (e : String) : List String × RunExit :=
  (["Connection failed:" ++ e ++ "\n"], .exited 1)

/-- The claim of C3, failure half, as stated: both commands exit the
process with a non-zero code when the connection-open handshake fails. -/
def dialFailureExitsNonZero : Prop :=
  ∀ e, exitCodeOf (connectDialFail e).2 ≠ 0 ∧
    exitCodeOf (debugListenDialFail e).2 ≠ 0

/-- Protocol-level normal closure (normal close or going-away close), the
notion of "normal close" in the specification's close semantics. -/
def isNormalClose : Terminal → Bool
  | .closeErr c _ => c == closeNormalClosure || c == closeGoingAway
  | .otherErr _ => false

/-- The claim of C6 as stated: in both commands the reader produces a
user-visible error line on termination exactly when the closure is not a
normal protocol-level close. -/
def errLineIffAbnormalClose : Prop :=
  (∀ t, listenReadFailLines t ≠ [] ↔ isNormalClose t = false) ∧
  (∀ t, connectReadFailLines t ≠ [] ↔ isNormalClose t = false)

/-- Control-task position in the shutdown coordination of both commands:
blocked in the outer `select` (on interrupt / `done`), blocked in the inner
`select` after writing the close frame (on `done` / `time.After(1s)`), or
returned from `Run`. -/
inductive Coord where
  | selecting
  | closingWait
  | finished
deriving DecidableEq

/-- Interleaving events of the two concurrent tasks plus the environment:
the reader receives a frame or its terminating error, the OS delivers an
interrupt signal, the control task takes a branch of one of its selects. -/
inductive Label where
  | readFrame
  | readTerm
  | signalInterrupt
  | selInterrupt
  | selDone
  | waitDone
  | waitTimeout
deriving DecidableEq

/-- What distinguishes the two commands' sessions: how the reader prints a
received frame, what it prints for the terminating receive error, and the
fixed strings of the coordinator's branches. -/
structure WireCfg (α : Type) where
  recvLines : α → List String
  renderTerm : Terminal → List String
  disconnectLines : List String
  closeFailLines : List String
  doneLines : List String

/-- Interleaved state of one session: the control task's position, the
frames still in flight, the receive error the transport will deliver once
they are exhausted (`none` = the receive blocks forever), whether `done`
is closed, whether an interrupt signal sits in the buffered channel,
whether the close-frame write will succeed, and the observable effects:
close frames written, frames rendered by the reader, and all printed
output in order. -/
structure Sys (α : Type) where
  coord : Coord
  pending : List α
  terminal : Option Terminal
  readerDone : Bool
  interruptPending : Bool
  closeWriteOk : Bool
  closeFrames : Nat
  rendered : Nat
  output : List String

/-- One interleaving step.  The reader loop receives and prints while it
has not returned; `close(done)` fires when its receive errors.  The outer
`select` consumes an interrupt (write close frame, then wait) or observes
`done`; the inner `select` finishes on `done` or on the 1-second timer,
with identical effect. -/
def genStep {α : Type} (wc : WireCfg α) (s : Sys α) : Label → Option (Sys α)
  | .readFrame =>
    if s.readerDone then none else
      match s.pending with
      | [] => none
      | f :: rest =>
          some { s with pending := rest,
                        output := s.output ++ wc.recvLines f,
                        rendered := s.rendered + (wc.recvLines f).length }
  | .readTerm =>
    if s.readerDone then none else
      match s.pending, s.terminal with
      | [], some t => some { s with readerDone := true,
                                    output := s.output ++ wc.renderTerm t }
      | _, _ => none
  | .signalInterrupt => some { s with interruptPending := true }
  | .selInterrupt =>
    match s.coord, s.interruptPending with
    | .selecting, true =>
        if s.closeWriteOk then
          some { s with coord := .closingWait, interruptPending := false,
                        output := s.output ++ wc.disconnectLines,
                        closeFrames := s.closeFrames + 1 }
        else
          some { s with coord := .finished, interruptPending := false,
                        output := s.output ++ wc.disconnectLines ++ wc.closeFailLines }
    | _, _ => none
  | .selDone =>
    match s.coord, s.readerDone with
    | .selecting, true => some { s with coord := .finished,
                                        output := s.output ++ wc.doneLines }
    | _, _ => none
  | .waitDone =>
    match s.coord, s.readerDone with
    | .closingWait, true => some { s with coord := .finished }
    | _, _ => none
  | .waitTimeout =>
    match s.coord with
    | .closingWait => some { s with coord := .finished }
    | _ => none

/-- Run a sequence of interleaving steps. -/
def genRun {α : Type} (wc : WireCfg α) : Sys α → List Label → Option (Sys α)
  | s, [] => some s
  | s, l :: ls => (genStep wc s l).bind (fun s' => genRun wc s' ls)

/-- Forget the buffered-interrupt flag: everything else in the state is
observable (output, close frames, render count, positions). -/
def eraseIntr {α : Type} (s : Sys α) : Sys α :=
  { s with interruptPending := false }

/-- The `debug listen` session: frames are decode results with their
timestamps, rendered through the filter/render pipeline; the coordinator
prints the wave-goodbye line, nothing on a failed close write, and the
server-closed line in the `done` branch. -/
def listenWire (lcfg : ListenCfg) : WireCfg (Option Json × String) where
  recvLines := fun p => (processFrame lcfg p.2 p.1).toList
  renderTerm := listenReadFailLines
  disconnectLines := ["\n👋 Disconnecting...\n"]
  closeFailLines := []
  doneLines := ["Server closed connection\n"]

/-- The `connect` session: frames are raw message text echoed with a `< `
marker; the terminating error is always logged; a failed close write is
logged; the `done` branch prints nothing. -/
def connectWire (closeWriteErr : String) : WireCfg String where
  recvLines := fun m => ["< " ++ m ++ "\n"]
  renderTerm := connectReadFailLines
  disconnectLines := ["\nDisconnecting...\n"]
  closeFailLines := ["write-close: " ++ closeWriteErr ++ "\n"]
  doneLines := []

/-- The claim of C2 as stated, for a session from `s0`: whenever the
control task has entered Closing (close frame sent, waiting), no step
renders anything further. -/
def noRenderOnceClosing {α : Type} (wc : WireCfg α) (s0 : Sys α) : Prop :=
  ∀ ls l s s', genRun wc s0 ls = some s → s.coord = .closingWait →
    genStep wc s l = some s' → s'.rendered = s.rendered

/-- A well-formed inbound frame (used in concrete scenarios). -/
def pongFrame : Option Json :=
  some (.obj [("type", Json.str "pong"), ("data", Json.obj [])])

/-- Session start right after a successful dial in `debug listen`: one
pong frame still in flight, transport will report a normal close once it
is consumed. -/
def demoListenInit : Sys (Option Json × String) where
  coord := .selecting
  pending := [(pongFrame, "12:00:00")]
  terminal := some (.closeErr closeNormalClosure "")
  readerDone := false
  interruptPending := false
  closeWriteOk := true
  closeFrames := 0
  rendered := 0
  output := []

/-- A listen session whose reader has already terminated. -/
def demoDone : Sys (Option Json × String) :=
  { demoListenInit with readerDone := true, pending := [] }

/-- A listen session in the Closing wait with the reader terminated. -/
def demoClosing : Sys (Option Json × String) :=
  { demoDone with coord := .closingWait }

/-- The state `demoDone` reaches when the coordinator observes `done`. -/
def demoDoneAfter : Sys (Option Json × String) :=
  { demoDone with coord := .finished,
                  output := demoDone.output ++ ["Server closed connection\n"] }

lemma processFrame_eq (lcfg : ListenCfg) (ts : String) (fr : Option Json) :
    processFrame lcfg ts fr =
      if frameMatches lcfg.filterType fr then
        some (renderEvent lcfg ts (typeOf (decodeFields fr)) (decodeFields fr))
      else none := by
  cases h : decodeFrame fr with
  | none => simp [processFrame, frameMatches, h]
  | some event =>
    simp only [processFrame, frameMatches, decodeFields, h, Option.getD_some]
    cases hf : lcfg.filterType == "" with
    | true =>
      have : lcfg.filterType = "" := by simpa using hf
      simp [this]
    | false =>
      have hne : (lcfg.filterType != "") = true := by simp [bne]; simpa using hf
      cases hc : strContains (typeOf event) lcfg.filterType <;>
        simp [hne, hc, hf]

lemma readerLines_cons (lcfg : ListenCfg) (p : Option Json × String)
    (rest : List (Option Json × String)) :
    readerLines lcfg (p :: rest) =
      (processFrame lcfg p.2 p.1).toList ++ readerLines lcfg rest := by
  cases h : processFrame lcfg p.2 p.1 <;>
    simp [readerLines, List.filterMap_cons, h]

/-- C1, counterexample: the claim's count is over frames that decode to a
JSON *object*, but `Unmarshal` also accepts the frame `null` (nil map, no
error), which the loop then renders when no filter is given — one line for
a sequence with zero object-matching frames. -/
theorem exact_object_count_counterexample : ¬ exactObjectMatchClaim := by
  intro h
  have h2 := h ⟨false, ""⟩ [(some Json.null, "t")]
  exact absurd h2 (by decide)

/-- C1, amended: for every finite sequence of inbound frames handed to the
listen reader loop, the rendered outputs are exactly the renderings of the
frames that `Unmarshal` accepts (a JSON object, or the literal `null`
decoding to the nil map) and that match the filter, in arrival order (so
their number is the number of such frames, and filtering never reorders). -/
theorem listen_reader_order_and_count (lcfg : ListenCfg)
    (frames : List (Option Json × String)) :
    readerLines lcfg frames =
      (frames.filter (fun p => frameMatches lcfg.filterType p.1)).map
        (fun p => renderEvent lcfg p.2 (typeOf (decodeFields p.1)) (decodeFields p.1)) ∧
    (readerLines lcfg frames).length =
      frames.countP (fun p => frameMatches lcfg.filterType p.1) := by
  constructor
  · induction frames with
    | nil => simp [readerLines]
    | cons p rest ih =>
      rw [readerLines_cons, ih, List.filter_cons]
      cases hm : frameMatches lcfg.filterType p.1 <;>
        simp [processFrame_eq, hm]
  · induction frames with
    | nil => simp [readerLines]
    | cons p rest ih =>
      rw [readerLines_cons, List.countP_cons]
      cases hm : frameMatches lcfg.filterType p.1 <;>
        simp [processFrame_eq, hm, ih]

/-- C4: a frame whose text fails to unmarshal produces no rendered line,
no user-visible error text, and the loop goes on to process the remaining
frames exactly as it would have without the malformed frame. -/
theorem malformed_frame_skipped (lcfg : ListenCfg) (ts : String)
    (fr : Option Json) (rest : List (Option Json × String)) (t : Terminal)
    (h : decodeFrame fr = none) :
    processFrame lcfg ts fr = none ∧
    listenReaderOutput lcfg ((fr, ts) :: rest) t = listenReaderOutput lcfg rest t := by
  have hp : processFrame lcfg ts fr = none := by
    simp [processFrame, h]
  refine ⟨hp, ?_⟩
  simp [listenReaderOutput, readerLines_cons, hp]

/-- Witness for C4 at a concrete malformed frame (text that is not JSON). -/
theorem malformed_frame_skipped_witness :
    processFrame ⟨false, ""⟩ "12:00:00" none = none ∧
    listenReaderOutput ⟨false, ""⟩ [(none, "12:00:00")] (.closeErr 1000 "") =
      listenReaderOutput ⟨false, ""⟩ [] (.closeErr 1000 "") :=
  malformed_frame_skipped ⟨false, ""⟩ "12:00:00" none [] (.closeErr 1000 "") rfl

lemma typeOf_eq_empty (event : List (String × Json))
    (h : ∀ s, getField event "type" ≠ some (.str s)) : typeOf event = "" := by
  unfold typeOf
  cases hg : getField event "type" with
  | none => rfl
  | some v =>
    cases v with
    | str s => exact absurd hg (h s)
    | null => rfl
    | bool b => rfl
    | num l => rfl
    | arr es => rfl
    | obj fs => rfl

/-- C7: in Compact mode the renderer emits exactly the single line
`[timestamp] <type padded to 30, left-justified>  <extracted id>`; the
padded column is the type followed by spaces and has width
`max (length type) 30`; in Verbose mode it emits the timestamp and type
followed by the fully pretty-printed payload. -/
theorem render_mode_format (flt ts ty : String) (ev : List (String × Json)) :
    renderEvent ⟨false, flt⟩ ts ty ev =
      "[" ++ ts ++ "] " ++ padRight ty 30 ++ "  " ++ extractId ev ++ "\n" ∧
    padRight ty 30 = ty ++ String.replicate (30 - ty.length) ' ' ∧
    (padRight ty 30).length = max ty.length 30 ∧
    renderEvent ⟨true, flt⟩ ts ty ev =
      "[" ++ ts ++ "] " ++ ty ++ "\n" ++ marshalIndent (Json.obj ev) ++ "\n\n" := by
  refine ⟨rfl, rfl, ?_, rfl⟩
  simp [padRight, String.length_append, String.length_replicate]
  omega

lemma extractId_eq_empty (ev : List (String × Json))
    (h : dataHasStringId ev = false) : extractId ev = "" := by
  unfold dataHasStringId at h
  unfold extractId
  cases hg : getField ev "data" with
  | none => simp [hg]
  | some v =>
    cases v with
    | obj data =>
      cases hi : getField data "id" with
      | none => simp [hg, hi]
      | some w =>
        cases w with
        | str s => simp [hg, hi] at h
        | null => simp [hg, hi]
        | bool b => simp [hg, hi]
        | num l => simp [hg, hi]
        | arr es => simp [hg, hi]
        | obj fs => simp [hg, hi]
    | null => simp [hg]
    | bool b => simp [hg]
    | num l => simp [hg]
    | str s => simp [hg]
    | arr es => simp [hg]

/-- C9: when the decoded event's `data` field is not an object carrying a
string-valued `"id"` (missing data, non-object data, missing id, or an id
of any other JSON type), the extracted identifier is the empty string and
the compact line's identifier column is empty. -/
theorem compact_id_requires_string_id (flt ts ty : String)
    (ev : List (String × Json)) (h : dataHasStringId ev = false) :
    extractId ev = "" ∧
    renderEvent ⟨false, flt⟩ ts ty ev =
      "[" ++ ts ++ "] " ++ padRight ty 30 ++ "  " ++ "\n" := by
  have he := extractId_eq_empty ev h
  refine ⟨he, ?_⟩
  simp [renderEvent, he]

/-- Witness for C9 at a concrete event whose `data.id` is a JSON number. -/
theorem compact_id_requires_string_id_witness :
    extractId [("data", Json.obj [("id", Json.num "7")])] = "" ∧
    renderEvent ⟨false, ""⟩ "12:00:00" "pong"
        [("data", Json.obj [("id", Json.num "7")])] =
      "[" ++ "12:00:00" ++ "] " ++ padRight "pong" 30 ++ "  " ++ "\n" :=
  compact_id_requires_string_id "" "12:00:00" "pong"
    [("data", Json.obj [("id", Json.num "7")])] rfl

/-- C10: a frame that unmarshals to an object with a missing or non-string
`type` still renders (with the type shown as the empty string) when no
filter is given, and is suppressed under every non-empty substring filter. -/
theorem untyped_event_render_vs_filter (vb : Bool) (ts : String)
    (fr : Option Json) (event : List (String × Json))
    (hdec : decodeFrame fr = some event)
    (hty : ∀ s, getField event "type" ≠ some (.str s)) :
    processFrame ⟨vb, ""⟩ ts fr = some (renderEvent ⟨vb, ""⟩ ts "" event) ∧
    ∀ flt, flt ≠ "" → processFrame ⟨vb, flt⟩ ts fr = none := by
  have hT := typeOf_eq_empty event hty
  constructor
  · simp [processFrame, hdec, hT]
  · intro flt hflt
    have hl : flt.toList ≠ [] := by
      intro hnil
      apply hflt
      cases flt with
      | mk d =>
        simp only [String.toList] at hnil
        subst hnil
        rfl
    have hc : strContains "" flt = false := by
      unfold strContains hasSubstrAux
      simpa [List.isEmpty_iff] using hl
    have hb : (flt != "") = true := by simpa using hflt
    simp [processFrame, hdec, hT, hc, hb]

/-- Witness for C10 at a frame whose `type` is a JSON number, against the
filter `"pay"`. -/
theorem untyped_event_render_vs_filter_witness :
    processFrame ⟨false, ""⟩ "12:00:00" (some (.obj [("type", Json.num "5")])) =
      some (renderEvent ⟨false, ""⟩ "12:00:00" "" [("type", Json.num "5")]) ∧
    processFrame ⟨false, "pay"⟩ "12:00:00" (some (.obj [("type", Json.num "5")])) =
      none := by
  have h := untyped_event_render_vs_filter false "12:00:00"
    (some (.obj [("type", Json.num "5")])) [("type", Json.num "5")] rfl
    (by intro s hs; simp [getField] at hs)
  exact ⟨h.1, h.2 "pay" (by decide)⟩

/-- C3, counterexample: the claim "both commands exit non-zero when the
handshake fails" is false — `debug listen` prints the failure line and
returns from `Run`, so the process exits 0. -/
theorem dial_failure_exit_counterexample : ¬ dialFailureExitsNonZero := by
  intro h
  exact (h "dial tcp 127.0.0.1:8089: connect: connection refused").2 rfl

/-- C3, amended: on handshake failure `connect` exits with code 1 (via
`log.Fatal`) while `debug listen` only prints the failure line and exits 0;
interrupt-triggered graceful shutdown ends with `Run` returning, which
exits 0. -/
theorem dial_failure_exit_codes :
    (∀ e, exitCodeOf (connectDialFail e).2 = 1) ∧
    (∀ e, exitCodeOf (debugListenDialFail e).2 = 0) ∧
    exitCodeOf RunExit.returned = 0 :=
  ⟨fun _ => rfl, fun _ => rfl, rfl⟩

/-- C6, counterexample: the claim "an error line is produced iff the close
is abnormal" is false — `connect` logs its `read-error` line even when the
reader ends with a normal protocol close (code 1000). -/
theorem err_line_iff_abnormal_counterexample : ¬ errLineIffAbnormalClose := by
  intro h
  have h2 := (h.2 (.closeErr closeNormalClosure "")).mp
    (by simp [connectReadFailLines])
  simp [isNormalClose, closeNormalClosure, closeGoingAway] at h2

/-- C6, amended: `debug listen` prints its connection-error line exactly
when the terminating receive error is an unexpected close error in
gorilla's sense (a protocol close whose code is neither 1000 nor 1001;
non-close receive errors print nothing), while `connect` always logs one
read-error line, normal closure included. -/
theorem read_fail_lines_amended (t : Terminal) :
    (listenReadFailLines t).length =
      (if isUnexpectedCloseError [closeGoingAway, closeNormalClosure] t
       then 1 else 0) ∧
    (connectReadFailLines t).length = 1 := by
  constructor
  · unfold listenReadFailLines
    split <;> simp
  · rfl

lemma genStep_readerDone {α : Type} (wc : WireCfg α) (s s' : Sys α) (l : Label)
    (hd : s.readerDone = true) (h : genStep wc s l = some s') :
    s'.readerDone = true ∧ s'.rendered = s.rendered := by
  obtain ⟨co, pe, te, rd, ip, cw, cf, rn, ou⟩ := s
  simp only at hd
  subst hd
  cases l with
  | readFrame => exact Option.noConfusion h
  | readTerm => exact Option.noConfusion h
  | signalInterrupt => injection h with h; subst h; exact ⟨rfl, rfl⟩
  | selInterrupt =>
    cases co with
    | selecting =>
      cases ip with
      | false => exact Option.noConfusion h
      | true =>
        cases cw with
        | true => injection h with h; subst h; exact ⟨rfl, rfl⟩
        | false => injection h with h; subst h; exact ⟨rfl, rfl⟩
    | closingWait => exact Option.noConfusion h
    | finished => exact Option.noConfusion h
  | selDone =>
    cases co with
    | selecting => injection h with h; subst h; exact ⟨rfl, rfl⟩
    | closingWait => exact Option.noConfusion h
    | finished => exact Option.noConfusion h
  | waitDone =>
    cases co with
    | selecting => exact Option.noConfusion h
    | closingWait => injection h with h; subst h; exact ⟨rfl, rfl⟩
    | finished => exact Option.noConfusion h
  | waitTimeout =>
    cases co with
    | selecting => exact Option.noConfusion h
    | closingWait => injection h with h; subst h; exact ⟨rfl, rfl⟩
    | finished => exact Option.noConfusion h

lemma genStep_coord {α : Type} (wc : WireCfg α) (s s' : Sys α) (l : Label)
    (h : genStep wc s l = some s') :
    s'.coord = s.coord ∨ s'.coord = .closingWait ∨ s'.coord = .finished := by
  obtain ⟨co, pe, te, rd, ip, cw, cf, rn, ou⟩ := s
  cases l with
  | readFrame =>
    cases rd with
    | true => exact Option.noConfusion h
    | false =>
      cases pe with
      | nil => exact Option.noConfusion h
      | cons f rest => injection h with h; subst h; left; rfl
  | readTerm =>
    cases rd with
    | true => exact Option.noConfusion h
    | false =>
      cases pe with
      | cons f rest => exact Option.noConfusion h
      | nil =>
        cases te with
        | none => exact Option.noConfusion h
        | some t => injection h with h; subst h; left; rfl
  | signalInterrupt => injection h with h; subst h; left; rfl
  | selInterrupt =>
    cases co with
    | selecting =>
      cases ip with
      | false => exact Option.noConfusion h
      | true =>
        cases cw with
        | true => injection h with h; subst h; right; left; rfl
        | false => injection h with h; subst h; right; right; rfl
    | closingWait => exact Option.noConfusion h
    | finished => exact Option.noConfusion h
  | selDone =>
    cases co with
    | selecting =>
      cases rd with
      | false => exact Option.noConfusion h
      | true => injection h with h; subst h; right; right; rfl
    | closingWait => exact Option.noConfusion h
    | finished => exact Option.noConfusion h
  | waitDone =>
    cases co with
    | selecting => exact Option.noConfusion h
    | closingWait =>
      cases rd with
      | false => exact Option.noConfusion h
      | true => injection h with h; subst h; right; right; rfl
    | finished => exact Option.noConfusion h
  | waitTimeout =>
    cases co with
    | selecting => exact Option.noConfusion h
    | closingWait => injection h with h; subst h; right; right; rfl
    | finished => exact Option.noConfusion h

/-- C2, amended: once the reader loop has exited (the `done` channel is
closed), no later step of any interleaving renders anything further, in
either command's session. -/
theorem no_render_after_reader_exit {α : Type} (wc : WireCfg α) (s0 : Sys α)
    (ls : List Label) (s' : Sys α) (hd : s0.readerDone = true)
    (hrun : genRun wc s0 ls = some s') :
    s'.rendered = s0.rendered ∧ s'.readerDone = true := by
  induction ls generalizing s0 with
  | nil =>
    simp only [genRun, Option.some.injEq] at hrun
    subst hrun; exact ⟨rfl, hd⟩
  | cons l ls ih =>
    cases hstep : genStep wc s0 l with
    | none => simp [genRun, hstep] at hrun
    | some s1 =>
      simp only [genRun, hstep, Option.bind_some] at hrun
      obtain ⟨h1, h2⟩ := genStep_readerDone wc s0 s1 l hd hstep
      obtain ⟨h3, h4⟩ := ih s1 h1 hrun
      exact ⟨h3.trans h2, h4⟩

/-- Witness for the amended C2 on a concrete listen session whose reader
has terminated, running the coordinator's `done` branch. -/
theorem no_render_after_reader_exit_witness :
    demoDoneAfter.rendered = demoDone.rendered ∧
    demoDoneAfter.readerDone = true :=
  no_render_after_reader_exit (listenWire ⟨false, ""⟩) demoDone [.selDone]
    demoDoneAfter rfl rfl

/-- C2, counterexample: in the listen session with one pong frame still in
flight, the coordinator consumes an interrupt and sends the close frame
(entering Closing), and the reader then still renders the in-flight frame —
so "no Event is rendered once the state leaves Open" is false of the code. -/
theorem render_after_close_counterexample :
    ¬ noRenderOnceClosing (listenWire ⟨false, ""⟩) demoListenInit := by
  intro h
  have h2 := h [.signalInterrupt, .selInterrupt] .readFrame _ _ rfl rfl rfl
  exact absurd h2 (by decide)

/-- C5: with the coordinator in the Closing wait, the timeout branch is
always enabled and leads to the terminal state, the reader-completion
branch (when available) leads to the very same state — timeout is treated
exactly like reader completion, with no error output — and every step the
coordinator can take from here ends in Closing or Done. -/
theorem closing_wait_bounded {α : Type} (wc : WireCfg α) (s : Sys α)
    (hc : s.coord = .closingWait) :
    genStep wc s .waitTimeout = some { s with coord := .finished } ∧
    (s.readerDone = true →
      genStep wc s .waitDone = some { s with coord := .finished }) ∧
    (∀ l s', genStep wc s l = some s' →
      s'.coord = .closingWait ∨ s'.coord = .finished) := by
  refine ⟨by simp [genStep, hc], fun hrd => by simp [genStep, hc, hrd], ?_⟩
  intro l s' h
  rcases genStep_coord wc s s' l h with h' | h' | h'
  · rw [h', hc]; left; rfl
  · left; exact h'
  · right; exact h'

/-- Witness for C5 on a concrete listen session in the Closing wait. -/
theorem closing_wait_bounded_witness :
    genStep (listenWire ⟨false, ""⟩) demoClosing .waitTimeout =
      some { demoClosing with coord := .finished } ∧
    genStep (listenWire ⟨false, ""⟩) demoClosing .waitDone =
      some { demoClosing with coord := .finished } :=
  ⟨(closing_wait_bounded (listenWire ⟨false, ""⟩) demoClosing rfl).1,
   (closing_wait_bounded (listenWire ⟨false, ""⟩) demoClosing rfl).2.1 rfl⟩

lemma genStep_eraseIntr {α : Type} (wc : WireCfg α) (s : Sys α) (b : Bool)
    (l : Label) (hc : s.coord ≠ .selecting) :
    (genStep wc { s with interruptPending := b } l).map eraseIntr =
      (genStep wc s l).map eraseIntr := by
  obtain ⟨co, pe, te, rd, ip, cw, cf, rn, ou⟩ := s
  simp only at hc
  cases l with
  | readFrame =>
    cases rd <;> cases pe <;> simp [genStep, eraseIntr]
  | readTerm =>
    cases rd <;> cases pe <;> cases te <;> simp [genStep, eraseIntr]
  | signalInterrupt => simp [genStep, eraseIntr]
  | selInterrupt =>
    cases co with
    | selecting => exact absurd rfl hc
    | closingWait => simp [genStep]
    | finished => simp [genStep]
  | selDone =>
    cases co with
    | selecting => exact absurd rfl hc
    | closingWait => simp [genStep]
    | finished => simp [genStep]
  | waitDone =>
    cases co <;> cases rd <;> simp [genStep, eraseIntr]
  | waitTimeout =>
    cases co <;> simp [genStep, eraseIntr]

lemma eraseIntr_update {α : Type} (s₁ s₂ : Sys α)
    (h : eraseIntr s₁ = eraseIntr s₂) :
    s₁ = { s₂ with interruptPending := s₁.interruptPending } := by
  obtain ⟨co₁, pe₁, te₁, rd₁, ip₁, cw₁, cf₁, rn₁, ou₁⟩ := s₁
  obtain ⟨co₂, pe₂, te₂, rd₂, ip₂, cw₂, cf₂, rn₂, ou₂⟩ := s₂
  simp only [eraseIntr, Sys.mk.injEq] at h ⊢
  simp_all

lemma genRun_eraseIntr {α : Type} (wc : WireCfg α) (ls : List Label) :
    ∀ s₁ s₂ : Sys α, eraseIntr s₁ = eraseIntr s₂ → s₁.coord ≠ .selecting →
      (genRun wc s₁ ls).map eraseIntr = (genRun wc s₂ ls).map eraseIntr := by
  induction ls with
  | nil =>
    intro s₁ s₂ h hc
    simpa [genRun] using h
  | cons l ls ih =>
    intro s₁ s₂ h hc
    have hco : s₁.coord = s₂.coord := by
      have := congrArg Sys.coord h
      simpa [eraseIntr] using this
    have hc₂ : s₂.coord ≠ .selecting := hco ▸ hc
    have h1 : s₁ = { s₂ with interruptPending := s₁.interruptPending } :=
      eraseIntr_update s₁ s₂ h
    have step_eq : (genStep wc s₁ l).map eraseIntr =
        (genStep wc s₂ l).map eraseIntr := by
      rw [h1]
      exact genStep_eraseIntr wc s₂ s₁.interruptPending l hc₂
    cases e1 : genStep wc s₁ l with
    | none =>
      have e2 : genStep wc s₂ l = none := by
        rw [e1] at step_eq
        cases e2' : genStep wc s₂ l with
        | none => rfl
        | some t => rw [e2'] at step_eq; simp at step_eq
      simp [genRun, e1, e2]
    | some t₁ =>
      rw [e1] at step_eq
      cases e2 : genStep wc s₂ l with
      | none => rw [e2] at step_eq; simp at step_eq
      | some t₂ =>
        rw [e2] at step_eq
        simp at step_eq
        have hct : t₁.coord ≠ .selecting := by
          rcases genStep_coord wc s₁ t₁ l e1 with h' | h' | h' <;> rw [h']
          · exact hc
          · exact fun hx => Coord.noConfusion hx
          · exact fun hx => Coord.noConfusion hx
        simp only [genRun, e1, e2, Option.bind_some]
        exact ih t₁ t₂ step_eq hct

/-- C8: a second interrupt signal delivered while the coordinator is
already in the Closing wait only sets the (never again read) buffered
signal flag: it writes no output and no second close frame, and every
observable aspect of the rest of the run — output, close-frame count,
render count, control position — is identical with or without it. -/
theorem second_interrupt_idempotent {α : Type} (wc : WireCfg α) (s : Sys α)
    (hc : s.coord = .closingWait) :
    genStep wc s .signalInterrupt = some { s with interruptPending := true } ∧
    ∀ ls, (genRun wc { s with interruptPending := true } ls).map eraseIntr =
      (genRun wc s ls).map eraseIntr := by
  refine ⟨rfl, fun ls => ?_⟩
  apply genRun_eraseIntr
  · obtain ⟨co, pe, te, rd, ip, cw, cf, rn, ou⟩ := s
    simp [eraseIntr]
  · show s.coord ≠ .selecting
    rw [hc]
    exact fun hx => Coord.noConfusion hx

/-- Witness for C8 on a concrete listen session in the Closing wait,
continued by the timeout branch. -/
theorem second_interrupt_idempotent_witness :
    genStep (listenWire ⟨false, ""⟩) demoClosing .signalInterrupt =
      some { demoClosing with interruptPending := true } ∧
    (genRun (listenWire ⟨false, ""⟩)
        { demoClosing with interruptPending := true } [.waitTimeout]).map eraseIntr =
      (genRun (listenWire ⟨false, ""⟩) demoClosing [.waitTimeout]).map eraseIntr :=
  ⟨(second_interrupt_idempotent (listenWire ⟨false, ""⟩) demoClosing rfl).1,
   (second_interrupt_idempotent (listenWire ⟨false, ""⟩) demoClosing rfl).2
     [.waitTimeout]⟩
